import Mathlib

/-!
# Handler chaining by `Adapt`

A verification development for the Go package `adapter` (`adapter.go`):

```go
type Adapter func(http.Handler) http.Handler

func Adapt(h http.Handler, adapters ...Adapter) http.Handler {
	for i := len(adapters) - 1; i >= 0; i-- {
		h = adapters[i](h)
	}
	return h
}
```

`http.Handler` values are embedded as state transformers: serving a request
reads the request and acts on the world (the response writer, a log, ...).
`Adapt` is embedded at three levels, linked by `Adapt.exec_toProc`:

* `Adapt`, the value computed by the loop when the adapters are side-effect
  free functions (the way the package is meant to be used);
* `Adapt.call`, the loop executed step by step with a Go `int` index and a
  bounds-checked slice access, on arbitrary values of the type `Adapter`: an
  adapter may be the nil function value, its call may act on the world, and
  its call may fail to return;
* `Adapt.exec`, the same run on adapters that are functions whose call returns.

The example program (`_example.go`) is embedded as well: `ServeIndex` and
`versionAdapter`, over a model of the response writer of `net/http`.
-/

namespace Chain

/-! ## Data model -/

/-- An `http.Handler`: `ServeHTTP(w, r)` reads the request (of type `ρ`) and acts on
the world (of type `σ`, which holds whatever the response writer `w` writes to). -/
abbrev Handler (σ ρ : Type) : Type := ρ → σ → σ

/-- The Go type `Adapter func(http.Handler) http.Handler`, for an adapter whose call only
builds the wrapping handler. -/
abbrev Adapter (σ ρ : Type) : Type := Handler σ ρ → Handler σ ρ

/-- An `Adapter` as a Go procedure: calling it returns the wrapping handler and may
also act on the world at the time of the call. -/
abbrev AdapterProc (σ ρ : Type) : Type := Handler σ ρ → σ → Handler σ ρ × σ

/-- A side-effect free adapter seen as a procedure: the world is left as it was. -/
def Adapter.toProc {σ ρ : Type} (a : Adapter σ ρ) : AdapterProc σ ρ :=
  fun h s => (a h, s)

/-- A value of the Go type `Adapter`, as the loop of `Adapt` meets it in the slice: the
nil function value, or a function. A call of the function either returns the wrapping
handler and the world it leaves, or does not return (`none`: the adapter panics, or never
comes back). -/
inductive AdapterValue (σ ρ : Type) : Type where
  /-- The nil function value. -/
  | nil : AdapterValue σ ρ
  /-- A function value, given by what a call of it does. -/
  | func (call : Handler σ ρ → σ → Option (Handler σ ρ × σ)) : AdapterValue σ ρ

/-- A procedure whose call returns, as a value of the type `Adapter`. -/
def AdapterProc.toValue {σ ρ : Type} (p : AdapterProc σ ρ) : AdapterValue σ ρ :=
  .func fun h s => some (p h s)

/-! ## `Adapt`: the value computed by the loop -/

/-- The loop of `Adapt`, `for i := len(adapters) - 1; i >= 0; i-- { h = adapters[i](h) }`,
entered with `i = n - 1`: for `n = 0` the test `i >= 0` fails and `h` is returned, otherwise
the body runs at index `i = n - 1` and the loop goes on with `i - 1`. -/
def Adapt.loop {σ ρ : Type} (adapters : List (Adapter σ ρ)) :
    (n : Nat) → n ≤ adapters.length → Handler σ ρ → Handler σ ρ
  | 0, _, h => h
  | i + 1, hi, h => Adapt.loop adapters i (Nat.le_of_succ_le hi) (adapters.get ⟨i, hi⟩ h)

/-- The Go function `Adapt(h, adapters...)`: the loop starts at `i = len(adapters) - 1`. -/
def Adapt {σ ρ : Type} (h : Handler σ ρ) (adapters : List (Adapter σ ρ)) : Handler σ ρ :=
  Adapt.loop adapters adapters.length (Nat.le_refl _) h

/-! ## `Adapt.exec`: the loop, step by step -/

/-- How a run of the loop ends. -/
inductive Outcome (α : Type) : Type where
  /-- The function returned normally. -/
  | ok (a : α) : Outcome α
  /-- The run-time error of a slice access `adapters[i]` with `i` outside `0 .. len-1`. -/
  | indexOutOfRange (i : Int) : Outcome α
  /-- The run-time error of the call `adapters[i](h)` when `adapters[i]` is nil. -/
  | nilCall (i : Int) : Outcome α
  /-- The call `adapters[i](h)` did not return (the adapter panicked or never came back),
  so `Adapt` does not return either. -/
  | noReturn (i : Int) : Outcome α
  /-- The bound on the number of evaluations of the loop test was reached. -/
  | outOfFuel : Outcome α

/-- The final world of a run that returned. -/
def Outcome.world? {α σ : Type} : Outcome (α × σ) → Option σ
  | .ok p => some p.2
  | _ => none

/-- The value returned by a run that returned. -/
def Outcome.value? {α σ : Type} : Outcome (α × σ) → Option α
  | .ok p => some p.1
  | _ => none

/-- A Go slice access `xs[i]` with an `int` index: defined for `0 ≤ i < len(xs)` only. -/
def sliceIndex {α : Type} (xs : List α) (i : Int) : Option α :=
  if i < 0 then none else xs[i.toNat]?

/-- The loop `for ...; i >= 0; i-- { h = adapters[i](h) }` from the state `(i, h)` in the
world `s`. One unit of fuel is spent for each evaluation of the test `i >= 0`. The body
reads `adapters[i]` (which fails when `i` is out of range), calls it on `h` (which fails
when it is nil, or when the call does not return) and stores the result in `h`. -/
def Adapt.run {σ ρ : Type} (adapters : List (AdapterValue σ ρ)) :
    Nat → Int → Handler σ ρ → σ → Outcome (Handler σ ρ × σ)
  | 0, _, _, _ => .outOfFuel
  | fuel + 1, i, h, s =>
    if i ≥ 0 then
      match sliceIndex adapters i with
      | none => .indexOutOfRange i
      | some .nil => .nilCall i
      | some (.func call) =>
        match call h s with
        | none => .noReturn i
        | some res => Adapt.run adapters fuel (i - 1) res.1 res.2
    else .ok (h, s)

/-- The Go function `Adapt(h, adapters...)` executed in the world `s`, on any values of
the type `Adapter`: `i := len(adapters) - 1`, then the loop, then `return h`. -/
def Adapt.call {σ ρ : Type} (fuel : Nat) (h : Handler σ ρ)
    (adapters : List (AdapterValue σ ρ)) (s : σ) : Outcome (Handler σ ρ × σ) :=
  Adapt.run adapters fuel ((adapters.length : Int) - 1) h s

/-- The Go function `Adapt(h, adapters...)` executed in the world `s`, on adapters that are
functions whose call returns. -/
def Adapt.exec {σ ρ : Type} (fuel : Nat) (h : Handler σ ρ)
    (adapters : List (AdapterProc σ ρ)) (s : σ) : Outcome (Handler σ ρ × σ) :=
  Adapt.call fuel h (adapters.map AdapterProc.toValue) s

/-! ## Reference definitions -/

/-- The right fold of function application: `nest h [a1, ..., aN] = a1 (a2 (... (aN h)))`. -/
def nest {σ ρ : Type} (h : Handler σ ρ) (adapters : List (Adapter σ ρ)) : Handler σ ρ :=
  adapters.foldr (fun a acc => a acc) h

/-- The right fold of procedure calls: the last procedure is called first, on `h`, and each
earlier one is called on the handler and in the world left by the later ones. -/
def nestProc {σ ρ : Type} (h : Handler σ ρ) (s : σ) :
    List (AdapterProc σ ρ) → Handler σ ρ × σ
  | [] => (h, s)
  | a :: rest => a (nestProc h s rest).1 (nestProc h s rest).2

/-! ## Events and the adapters the properties speak about -/

/-- An observable event. -/
abbrev Event : Type := String

/-- The events emitted so far, oldest first. -/
abbrev Trace : Type := List Event

/-- A terminal handler that emits the event `e` and nothing else. -/
def emit {ρ : Type} (e : Event) : Handler Trace ρ :=
  fun _ t => t ++ [e]

/-- A terminal handler that emits the events `evs r` when serving the request `r`. -/
def emitAll {ρ : Type} (evs : ρ → List Event) : Handler Trace ρ :=
  fun r t => t ++ evs r

/-- An adapter whose handler emits `pre`, invokes the downstream handler once, then emits
`post`. -/
def wrap {ρ : Type} (pre post : Event) : Adapter Trace ρ :=
  fun next r t => next r (t ++ [pre]) ++ [post]

/-- An adapter whose handler emits `a` and then invokes the downstream handler once. -/
def mark {ρ : Type} (a : Event) : Adapter Trace ρ :=
  fun next r t => next r (t ++ [a])

/-- An adapter whose handler emits `c` and returns without invoking the downstream
handler. -/
def stop {ρ : Type} (c : Event) : Adapter Trace ρ :=
  fun _ _ t => t ++ [c]

/-- A handler only emits: serving a request extends the trace, it never rewrites it. -/
def AppendOnly {ρ : Type} (h : Handler Trace ρ) : Prop :=
  ∀ r t, ∃ evs, h r t = t ++ evs

/-- An adapter whose handler never invokes its downstream handler: the handler it
builds is the same whatever the downstream handler is. -/
def NeverCallsThrough {σ ρ : Type} (a : Adapter σ ρ) : Prop :=
  ∀ next next', a next = a next'

/-- The adapters `wrap pre_1 post_1, ..., wrap pre_N post_N`, listed in that order. -/
def wraps {ρ : Type} (ps : List (Event × Event)) : List (Adapter Trace ρ) :=
  ps.map fun p => wrap p.1 p.2

/-- An adapter procedure that records `name` in the trace when it is called, and builds
its wrapping handler with `a`. -/
def announce {ρ : Type} (name : Event) (a : Adapter Trace ρ) : AdapterProc Trace ρ :=
  fun h t => (a h, t ++ [name])

/-- An adapter whose handler invokes the downstream handler `m` times in a row and emits
nothing itself. -/
def callTimes {σ ρ : Type} (m : Nat) : Adapter σ ρ :=
  fun next r s => Nat.iterate (next r) m s

/-! ## The example program (`_example.go`) and the part of `net/http` it uses -/

/-- An `http.Header`: the values recorded under each key, oldest first; a key that is
absent from the map has no values. -/
abbrev Header : Type := String → List String

/-- The bytes allowed in a header field name (`validHeaderFieldByte` of `net/textproto`):
ASCII letters, digits and the token punctuation, given here by their codes. -/
def validHeaderFieldByte (c : Char) : Bool :=
  c.isAlphanum
    || [33, 35, 36, 37, 38, 39, 42, 43, 45, 46, 94, 95, 96, 124, 126].contains c.toNat

/-- The rewriting pass of `textproto.CanonicalMIMEHeaderKey`: the first letter and every
letter that follows a hyphen are made upper case, the other letters lower case. -/
def canonicalLetters : Bool → List Char → List Char
  | _, [] => []
  | upper, c :: cs =>
    let c' := if upper && c.isLower then c.toUpper
              else if !upper && c.isUpper then c.toLower
              else c
    c' :: canonicalLetters (c' == '-') cs

/-- The library function `textproto.CanonicalMIMEHeaderKey`: a key made of valid header
field bytes only is put in canonical form, any other key is returned unchanged. -/
def canonicalMIMEHeaderKey (s : String) : String :=
  if s.toList.all validHeaderFieldByte then String.mk (canonicalLetters true s.toList) else s

/-- The library method `http.Header.Add(key, value)`: the key is canonicalised and the
value is appended to the values already recorded under it. -/
def Header.add (h : Header) (key value : String) : Header :=
  fun k => if k = canonicalMIMEHeaderKey key then h k ++ [value] else h k

/-- The library method `http.Header.Del(key)`: the key is canonicalised and its values are
removed. -/
def Header.del (h : Header) (key : String) : Header :=
  fun k => if k = canonicalMIMEHeaderKey key then [] else h k

/-- The unexported `Header.get(key)` of `net/http`: the first value recorded under the key
as given, the empty string when there is none. -/
def Header.first (h : Header) (key : String) : String :=
  ((h key).head?).getD ""

/-- A declared `Content-Length` as the server reads it when the status line is written:
`strconv.ParseInt(cl, 10, 64)` must succeed (an optional sign, then decimal digits only,
within the range of `int64`) with a result that is not negative. -/
def parseContentLength (cl : String) : Option Nat :=
  let digits (ds : List Char) : Option Nat :=
    if ds.isEmpty || !ds.all Char.isDigit then none
    else some (ds.foldl (fun n c => 10 * n + (c.toNat - 48)) 0)
  match cl.toList with
  | '+' :: ds => (digits ds).filter fun v => decide (v < 2 ^ 63)
  | '-' :: ds => (digits ds).filter fun v => decide (v = 0)
  | ds => (digits ds).filter fun v => decide (v < 2 ^ 63)

/-- The library function `bodyAllowedForStatus`: no body with a 1xx, 204 or 304 status. -/
def bodyAllowedForStatus (status : Nat) : Bool :=
  !((100 ≤ status && status ≤ 199) || status == 204 || status == 304)

/-- The library function `isASCIISpace` of `net/textproto`: space, tab, line feed,
carriage return (given by their codes). -/
def isASCIISpace (c : Char) : Bool :=
  c.toNat == 32 || c.toNat == 9 || c.toNat == 10 || c.toNat == 13

/-- The replacer `headerNewlineToSpace` of `net/http`, on one character: a line feed or a
carriage return becomes a space. -/
def headerNewlineToSpace (c : Char) : Char :=
  if c.toNat == 10 || c.toNat == 13 then ' ' else c

/-- The library function `textproto.TrimString`: leading and trailing ASCII space is
dropped. -/
def trimString (cs : List Char) : List Char :=
  ((cs.dropWhile isASCIISpace).reverse.dropWhile isASCIISpace).reverse

/-- The form in which `net/http` writes a header value on the wire (`Header.writeSubset`):
line breaks replaced by spaces, then the surrounding ASCII space trimmed. -/
def wireValue (v : String) : String :=
  String.mk (trimString (v.toList.map headerNewlineToSpace))

/-- A header value that has no line break and neither starts nor ends with ASCII space. -/
def plainValue (v : String) : Bool :=
  v.toList.all (fun c => !(c.toNat == 10 || c.toNat == 13))
    && !((v.toList.head?.map isASCIISpace).getD false)
    && !((v.toList.getLast?.map isASCIISpace).getD false)

/-- A request, as far as the response of the example depends on it: its method. -/
structure Request where
  /-- The field `r.Method`. -/
  method : String

/-- The state of the `http.ResponseWriter` that the server of `net/http` hands to a
handler. -/
structure ResponseWriter where
  /-- The method of the request being answered (`w.req.Method`). -/
  method : String
  /-- Whether the connection has been taken over with `Hijack`. -/
  hijacked : Bool
  /-- The header map returned by `w.Header()`. -/
  header : Header
  /-- The status code and the header map as they stood when the status line was written
  (`none` before that); later changes of the header map do not reach the response. -/
  sent : Option (Nat × Header)
  /-- The `Content-Length` declared when the status line was written, if any. -/
  contentLength : Option Nat
  /-- The number of body bytes handed to `Write` so far. -/
  written : Nat
  /-- The body of the response so far. -/
  body : String

/-- The response writer at the start of a request with the given method: an empty header
map, nothing sent. -/
def ResponseWriter.fresh (method : String) : ResponseWriter :=
  { method := method, hijacked := false, header := fun _ => [], sent := none,
    contentLength := none, written := 0, body := "" }

/-- The status of the response (`http.StatusOK` while none is sent). -/
def ResponseWriter.status (w : ResponseWriter) : Nat :=
  match w.sent with
  | some st => st.1
  | none => 200

/-- The statement `w.Header().Add(key, value)`. -/
def ResponseWriter.headerAdd (w : ResponseWriter) (key value : String) : ResponseWriter :=
  { w with header := w.header.add key value }

/-- The call `w.WriteHeader(http.StatusOK)` that `Write` makes when no status line is
written yet: the status and the header map of that moment are fixed; a valid declared
`Content-Length` is recorded, an invalid one is deleted from the header map. -/
def ResponseWriter.writeHeaderOK (w : ResponseWriter) : ResponseWriter :=
  if w.header.first "Content-Length" = "" then
    { w with sent := some (200, w.header) }
  else
    match parseContentLength (w.header.first "Content-Length") with
    | some v => { w with sent := some (200, w.header), contentLength := some v }
    | none => { w with sent := some (200, w.header), header := w.header.del "Content-Length" }

/-- The part of `w.Write(data)` that follows the status line: empty data ends the call;
data is refused when the status allows no body; otherwise it is counted, and then refused
when the count exceeds the declared `Content-Length`, accepted and discarded for a `HEAD`
request, and appended to the body in every other case. -/
def ResponseWriter.writeData (w : ResponseWriter) (data : String) : ResponseWriter :=
  if data.utf8ByteSize = 0 then w
  else if !bodyAllowedForStatus w.status then w
  else if (w.contentLength.map fun n => decide (n < w.written + data.utf8ByteSize)).getD false
  then { w with written := w.written + data.utf8ByteSize }
  else if w.method = "HEAD" then { w with written := w.written + data.utf8ByteSize }
  else { w with written := w.written + data.utf8ByteSize, body := w.body ++ data }

/-- The statement `w.Write(data)`, its results dropped. On a hijacked connection nothing
happens. Otherwise the status line is written first, with `http.StatusOK`, when none is
written yet, and then the data is handled. -/
def ResponseWriter.write (w : ResponseWriter) (data : String) : ResponseWriter :=
  if w.hijacked then w
  else (if w.sent.isSome then w else w.writeHeaderOK).writeData data

/-- The Go function `ServeIndex(w, r)`: writes the body `Hello, World.`. -/
def ServeIndex {ρ : Type} : Handler ResponseWriter ρ :=
  fun _ w => w.write "Hello, World."

/-- The Go function `versionAdapter(greeting)`: the handler it builds adds `greeting` under
the key `textproto.CanonicalMIMEHeaderKey("vnd-adapter-example")` and then calls
`handler.ServeHTTP(w, r)`. -/
def versionAdapter {ρ : Type} (greeting : String) : Adapter ResponseWriter ρ :=
  fun handler r w =>
    handler r (w.headerAdd (canonicalMIMEHeaderKey "vnd-adapter-example") greeting)

/-! ## Lemmas on the loop -/

theorem Adapt.loop_eq_nest {σ ρ : Type} (adapters : List (Adapter σ ρ)) :
    ∀ (n : Nat) (hn : n ≤ adapters.length) (h : Handler σ ρ),
      Adapt.loop adapters n hn h = nest h (adapters.take n) := by
  intro n
  induction n with
  | zero => intro hn h; simp [Adapt.loop, nest]
  | succ i ih =>
    intro hn h
    have hi : i < adapters.length := hn
    rw [Adapt.loop, ih, List.take_succ, List.getElem?_eq_getElem hi]
    unfold nest
    rw [List.foldr_append]
    rfl

theorem Adapt_eq_nest {σ ρ : Type} (h : Handler σ ρ) (adapters : List (Adapter σ ρ)) :
    Adapt h adapters = nest h adapters := by
  unfold Adapt
  rw [Adapt.loop_eq_nest, List.take_length]

theorem Adapt_nil {σ ρ : Type} (h : Handler σ ρ) : Adapt h [] = h := rfl

theorem Adapt_cons {σ ρ : Type} (h : Handler σ ρ) (a : Adapter σ ρ)
    (rest : List (Adapter σ ρ)) : Adapt h (a :: rest) = a (Adapt h rest) := by
  simp [Adapt_eq_nest, nest]

theorem Adapt_append {σ ρ : Type} (h : Handler σ ρ) (xs ys : List (Adapter σ ρ)) :
    Adapt h (xs ++ ys) = Adapt (Adapt h ys) xs := by
  simp [Adapt_eq_nest, nest, List.foldr_append]

/-! ## Lemmas on the step-by-step loop -/

theorem sliceIndex_natCast {α : Type} (xs : List α) (n : Nat) (hn : n < xs.length) :
    sliceIndex xs (n : Int) = some (xs.get ⟨n, hn⟩) := by
  unfold sliceIndex
  have h0 : ¬ ((n : Int) < 0) := by omega
  rw [if_neg h0, Int.toNat_ofNat, List.getElem?_eq_getElem hn]
  rfl

theorem nestProc_append {σ ρ : Type} (h : Handler σ ρ) (s : σ)
    (xs ys : List (AdapterProc σ ρ)) :
    nestProc h s (xs ++ ys) = nestProc (nestProc h s ys).1 (nestProc h s ys).2 xs := by
  induction xs with
  | nil => rfl
  | cons a rest ih =>
    show a (nestProc h s (rest ++ ys)).1 (nestProc h s (rest ++ ys)).2 = _
    rw [ih]
    rfl

theorem sliceIndex_toValue {σ ρ : Type} (adapters : List (AdapterProc σ ρ)) (n : Nat)
    (hn : n < adapters.length) :
    sliceIndex (adapters.map AdapterProc.toValue) (n : Int)
      = some (.func fun h s => some (adapters.get ⟨n, hn⟩ h s)) := by
  have hn' : n < (adapters.map AdapterProc.toValue).length := by
    rw [List.length_map]; exact hn
  rw [sliceIndex_natCast _ n hn']
  simp [AdapterProc.toValue]

theorem Adapt.run_take {σ ρ : Type} (adapters : List (AdapterProc σ ρ)) :
    ∀ (n : Nat), n ≤ adapters.length → ∀ (fuel : Nat), n < fuel →
      ∀ (h : Handler σ ρ) (s : σ),
        Adapt.run (adapters.map AdapterProc.toValue) fuel ((n : Int) - 1) h s
          = .ok (nestProc h s (adapters.take n)) := by
  intro n
  induction n with
  | zero =>
    intro _ fuel hf h s
    obtain ⟨f, rfl⟩ : ∃ f, fuel = f + 1 := ⟨fuel - 1, by omega⟩
    simp [Adapt.run, nestProc]
  | succ i ih =>
    intro hn fuel hf h s
    obtain ⟨f, rfl⟩ : ∃ f, fuel = f + 1 := ⟨fuel - 1, by omega⟩
    have hi : i < adapters.length := hn
    have hcast : ((i + 1 : Nat) : Int) - 1 = (i : Int) := by omega
    have hpos : (i : Int) ≥ 0 := by omega
    rw [hcast, Adapt.run, if_pos hpos, sliceIndex_toValue adapters i hi]
    simp only []
    rw [ih (Nat.le_of_succ_le hn) f (by omega), List.take_succ,
      List.getElem?_eq_getElem hi, nestProc_append]
    rfl

theorem Adapt.run_outOfFuel {σ ρ : Type} (adapters : List (AdapterProc σ ρ)) :
    ∀ (fuel n : Nat), fuel ≤ n → n ≤ adapters.length → ∀ (h : Handler σ ρ) (s : σ),
      Adapt.run (adapters.map AdapterProc.toValue) fuel ((n : Int) - 1) h s
        = .outOfFuel := by
  intro fuel
  induction fuel with
  | zero => intro n _ _ h s; rfl
  | succ f ih =>
    intro n hf hn h s
    obtain ⟨i, rfl⟩ : ∃ i, n = i + 1 := ⟨n - 1, by omega⟩
    have hi : i < adapters.length := hn
    have hcast : ((i + 1 : Nat) : Int) - 1 = (i : Int) := by omega
    have hpos : (i : Int) ≥ 0 := by omega
    rw [hcast, Adapt.run, if_pos hpos, sliceIndex_toValue adapters i hi]
    simp only []
    exact ih i (by omega) (Nat.le_of_succ_le hn) _ _

theorem Adapt.run_indexInRange {σ ρ : Type} (adapters : List (AdapterValue σ ρ)) :
    ∀ (fuel n : Nat), n ≤ adapters.length → ∀ (h : Handler σ ρ) (s : σ) (j : Int),
      Adapt.run adapters fuel ((n : Int) - 1) h s ≠ .indexOutOfRange j := by
  intro fuel
  induction fuel with
  | zero => intro n _ h s j hj; simp [Adapt.run] at hj
  | succ f ih =>
    intro n hn h s j
    cases n with
    | zero => simp [Adapt.run]
    | succ i =>
      have hi : i < adapters.length := hn
      have hcast : ((i + 1 : Nat) : Int) - 1 = (i : Int) := by omega
      have hpos : (i : Int) ≥ 0 := by omega
      rw [hcast, Adapt.run, if_pos hpos, sliceIndex_natCast adapters i hi]
      cases adapters.get ⟨i, hi⟩ with
      | nil => simp
      | func call =>
        cases hc : call h s with
        | none => simp [hc]
        | some res =>
          simp only [hc]
          exact ih i (Nat.le_of_succ_le hn) res.1 res.2 j

theorem Adapt.run_ends {σ ρ : Type} (adapters : List (AdapterValue σ ρ)) :
    ∀ (n : Nat), n ≤ adapters.length → ∀ (fuel : Nat), n < fuel →
      ∀ (h : Handler σ ρ) (s : σ),
        Adapt.run adapters fuel ((n : Int) - 1) h s ≠ .outOfFuel := by
  intro n
  induction n with
  | zero =>
    intro _ fuel hf h s
    obtain ⟨f, rfl⟩ : ∃ f, fuel = f + 1 := ⟨fuel - 1, by omega⟩
    simp [Adapt.run]
  | succ i ih =>
    intro hn fuel hf h s
    obtain ⟨f, rfl⟩ : ∃ f, fuel = f + 1 := ⟨fuel - 1, by omega⟩
    have hi : i < adapters.length := hn
    have hcast : ((i + 1 : Nat) : Int) - 1 = (i : Int) := by omega
    have hpos : (i : Int) ≥ 0 := by omega
    rw [hcast, Adapt.run, if_pos hpos, sliceIndex_natCast adapters i hi]
    cases adapters.get ⟨i, hi⟩ with
    | nil => simp
    | func call =>
      cases hc : call h s with
      | none => simp [hc]
      | some res =>
        simp only [hc]
        exact ih (Nat.le_of_succ_le hn) f (by omega) res.1 res.2

theorem Adapt.run_nilCall {σ ρ : Type} (adapters : List (AdapterValue σ ρ)) :
    ∀ (fuel n : Nat), n ≤ adapters.length → ∀ (h : Handler σ ρ) (s : σ) (j : Int),
      Adapt.run adapters fuel ((n : Int) - 1) h s = .nilCall j →
        sliceIndex adapters j = some .nil := by
  intro fuel
  induction fuel with
  | zero => intro n _ h s j hj; simp [Adapt.run] at hj
  | succ f ih =>
    intro n hn h s j
    cases n with
    | zero => simp [Adapt.run]
    | succ i =>
      have hi : i < adapters.length := hn
      have hcast : ((i + 1 : Nat) : Int) - 1 = (i : Int) := by omega
      have hpos : (i : Int) ≥ 0 := by omega
      rw [hcast, Adapt.run, if_pos hpos, sliceIndex_natCast adapters i hi]
      cases hv : adapters.get ⟨i, hi⟩ with
      | nil =>
        intro hj
        simp only [Outcome.nilCall.injEq] at hj
        rw [← hj, sliceIndex_natCast adapters i hi, hv]
      | func call =>
        cases hc : call h s with
        | none => simp [hc]
        | some res =>
          simp only [hc]
          exact ih i (Nat.le_of_succ_le hn) res.1 res.2 j

theorem Adapt.run_noReturn {σ ρ : Type} (adapters : List (AdapterValue σ ρ)) :
    ∀ (fuel n : Nat), n ≤ adapters.length → ∀ (h : Handler σ ρ) (s : σ) (j : Int),
      Adapt.run adapters fuel ((n : Int) - 1) h s = .noReturn j →
        ∃ call, sliceIndex adapters j = some (.func call) := by
  intro fuel
  induction fuel with
  | zero => intro n _ h s j hj; simp [Adapt.run] at hj
  | succ f ih =>
    intro n hn h s j
    cases n with
    | zero => simp [Adapt.run]
    | succ i =>
      have hi : i < adapters.length := hn
      have hcast : ((i + 1 : Nat) : Int) - 1 = (i : Int) := by omega
      have hpos : (i : Int) ≥ 0 := by omega
      rw [hcast, Adapt.run, if_pos hpos, sliceIndex_natCast adapters i hi]
      cases hv : adapters.get ⟨i, hi⟩ with
      | nil => simp
      | func call =>
        cases hc : call h s with
        | none =>
          intro hj
          simp only [hc, Outcome.noReturn.injEq] at hj
          refine ⟨call, ?_⟩
          rw [← hj, sliceIndex_natCast adapters i hi, hv]
        | some res =>
          simp only [hc]
          exact ih i (Nat.le_of_succ_le hn) res.1 res.2 j

theorem Adapt.exec_eq {σ ρ : Type} (fuel : Nat) (h : Handler σ ρ)
    (adapters : List (AdapterProc σ ρ)) (s : σ) :
    Adapt.exec fuel h adapters s =
      if fuel ≤ adapters.length then .outOfFuel else .ok (nestProc h s adapters) := by
  unfold Adapt.exec Adapt.call
  rw [List.length_map]
  split
  · exact Adapt.run_outOfFuel adapters fuel adapters.length (by assumption) (Nat.le_refl _) h s
  · rw [Adapt.run_take adapters adapters.length (Nat.le_refl _) fuel (by omega) h s,
      List.take_length]

theorem Adapt.exec_enough {σ ρ : Type} (k : Nat) (h : Handler σ ρ)
    (adapters : List (AdapterProc σ ρ)) (s : σ) :
    Adapt.exec (adapters.length + 1 + k) h adapters s = .ok (nestProc h s adapters) := by
  rw [Adapt.exec_eq, if_neg (by omega)]

theorem nestProc_toProc {σ ρ : Type} (h : Handler σ ρ) (s : σ) (as : List (Adapter σ ρ)) :
    nestProc h s (as.map Adapter.toProc) = (Adapt h as, s) := by
  induction as with
  | nil => rfl
  | cons a rest ih => simp only [List.map_cons, nestProc, ih, Adapter.toProc, Adapt_cons]

theorem Adapt.exec_toProc {σ ρ : Type} (k : Nat) (h : Handler σ ρ)
    (as : List (Adapter σ ρ)) (s : σ) :
    Adapt.exec (as.length + 1 + k) h (as.map Adapter.toProc) s = .ok (Adapt h as, s) := by
  have := Adapt.exec_enough k h (as.map Adapter.toProc) s
  rw [List.length_map, nestProc_toProc] at this
  exact this

theorem nestProc_announce {ρ : Type} (h : Handler Trace ρ) (t : Trace)
    (as : List (Event × Adapter Trace ρ)) :
    nestProc h t (as.map fun p => announce p.1 p.2) =
      (Adapt h (as.map Prod.snd), t ++ (as.map Prod.fst).reverse) := by
  induction as with
  | nil => simp [nestProc, Adapt_nil]
  | cons a rest ih =>
    simp only [List.map_cons, nestProc, ih, announce, Adapt_cons, List.reverse_cons,
      List.append_assoc]

/-! ## Lemmas on traces -/

theorem Adapt_wraps {ρ : Type} (g : Handler Trace ρ) (ps : List (Event × Event)) (r : ρ) :
    ∀ t : Trace, Adapt g (wraps ps) r t
      = g r (t ++ ps.map Prod.fst) ++ (ps.map Prod.snd).reverse := by
  induction ps with
  | nil => intro t; simp [wraps, Adapt_nil]
  | cons p rest ih =>
    intro t
    have hw : wraps (ρ := ρ) (p :: rest) = wrap p.1 p.2 :: wraps rest := rfl
    rw [hw, Adapt_cons]
    show Adapt g (wraps rest) r (t ++ [p.1]) ++ [p.2] = _
    rw [ih]
    simp

theorem stop_neverCallsThrough {ρ : Type} (c : Event) :
    NeverCallsThrough (stop (ρ := ρ) c) :=
  fun _ _ => rfl

theorem Adapt_cut {σ ρ : Type} (c : Adapter σ ρ) (hc : NeverCallsThrough c)
    (xs ys ys' : List (Adapter σ ρ)) (T T' : Handler σ ρ) :
    Adapt T (xs ++ c :: ys) = Adapt T' (xs ++ c :: ys') := by
  rw [Adapt_append, Adapt_append, Adapt_cons, Adapt_cons, hc (Adapt T ys) (Adapt T' ys')]

theorem emit_appendOnly {ρ : Type} (e : Event) : AppendOnly (emit (ρ := ρ) e) :=
  fun _ _ => ⟨[e], rfl⟩

theorem Adapt.exec_snoc {σ ρ : Type} (k : Nat) (h : Handler σ ρ)
    (procs : List (AdapterProc σ ρ)) (last : AdapterProc σ ρ) (s : σ) :
    Adapt.exec ((procs ++ [last]).length + 1 + k) h (procs ++ [last]) s
      = Adapt.exec (procs.length + 1 + k) (last h s).1 procs (last h s).2 := by
  rw [Adapt.exec_enough, Adapt.exec_enough, nestProc_append]
  rfl

theorem Adapt.exec_append {σ ρ : Type} (k : Nat) (h : Handler σ ρ)
    (ps qs : List (AdapterProc σ ρ)) (s : σ) :
    Adapt.exec ((ps ++ qs).length + 1 + k) h (ps ++ qs) s
      = Adapt.exec (ps.length + 1 + k) (nestProc h s qs).1 ps (nestProc h s qs).2 := by
  rw [Adapt.exec_enough, Adapt.exec_enough, nestProc_append]

theorem iterate_emitter {m : Nat} (f : Trace → Trace) (evs : List Event)
    (hf : ∀ t, f t = t ++ evs) :
    ∀ t, Nat.iterate f m t = t ++ (List.replicate m evs).flatten := by
  induction m with
  | zero => intro t; simp
  | succ n ih =>
    intro t
    rw [Function.iterate_succ_apply, hf, ih, List.replicate_succ, List.flatten_cons,
      List.append_assoc]

theorem canonicalKey_example :
    canonicalMIMEHeaderKey "vnd-adapter-example" = "Vnd-Adapter-Example" := by
  decide

theorem canonicalKey_canonical :
    canonicalMIMEHeaderKey "Vnd-Adapter-Example" = "Vnd-Adapter-Example" := by
  decide

theorem canonicalKey_contentLength :
    canonicalMIMEHeaderKey "Content-Length" = "Content-Length" := by
  decide

theorem write_hello_fresh (g m : String) :
    ((ResponseWriter.fresh m).headerAdd "Vnd-Adapter-Example" g).write "Hello, World."
      = { method := m, hijacked := false,
          header := Header.add (fun _ => []) "Vnd-Adapter-Example" g,
          sent := some (200, Header.add (fun _ => []) "Vnd-Adapter-Example" g),
          contentLength := none, written := 13,
          body := if m = "HEAD" then "" else "Hello, World." } := by
  have hcl : Header.first (Header.add (fun _ => []) "Vnd-Adapter-Example" g) "Content-Length"
      = "" := by
    unfold Header.first Header.add
    rw [canonicalKey_canonical, if_neg (by decide)]
    rfl
  have hlen : ("Hello, World." : String).utf8ByteSize = 13 := by decide
  unfold ResponseWriter.write ResponseWriter.writeData ResponseWriter.headerAdd
    ResponseWriter.fresh
  simp only [Bool.false_eq_true, if_false, Option.isSome, ResponseWriter.writeHeaderOK, hcl,
    if_true, hlen]
  by_cases hm : m = "HEAD"
  · simp [hm, ResponseWriter.status, bodyAllowedForStatus]
  · simp [hm, ResponseWriter.status, bodyAllowedForStatus]

theorem writeData_header (w : ResponseWriter) (data : String) :
    (w.writeData data).header = w.header := by
  unfold ResponseWriter.writeData
  split_ifs <;> rfl

theorem write_header_other (w : ResponseWriter) (data k : String)
    (hk : k ≠ "Content-Length") : (w.write data).header k = w.header k := by
  have hwh : (w.writeHeaderOK).header k = w.header k := by
    unfold ResponseWriter.writeHeaderOK
    split
    · rfl
    · split
      · rfl
      · show Header.del w.header "Content-Length" k = w.header k
        unfold Header.del
        rw [canonicalKey_contentLength, if_neg hk]
  unfold ResponseWriter.write
  split
  · rfl
  · rw [writeData_header]
    split
    · rfl
    · exact hwh

theorem dropWhile_of_head {α : Type} (p : α → Bool) (l : List α)
    (h : (l.head?.map p).getD false = false) : l.dropWhile p = l := by
  cases l with
  | nil => rfl
  | cons a t =>
    have ha : p a = false := by simpa using h
    simp [List.dropWhile, ha]

theorem trimString_of_ends (cs : List Char)
    (hfirst : (cs.head?.map isASCIISpace).getD false = false)
    (hlast : (cs.getLast?.map isASCIISpace).getD false = false) : trimString cs = cs := by
  unfold trimString
  rw [dropWhile_of_head _ cs hfirst, dropWhile_of_head _ cs.reverse, List.reverse_reverse]
  rw [List.head?_reverse]
  exact hlast

theorem wireValue_plain (v : String) (hv : plainValue v = true) : wireValue v = v := by
  unfold plainValue at hv
  simp only [Bool.and_eq_true, Bool.not_eq_true', List.all_eq_true] at hv
  obtain ⟨⟨hnl, hfirst⟩, hlast⟩ := hv
  have hmap : v.toList.map headerNewlineToSpace = v.toList := by
    conv_rhs => rw [← List.map_id v.toList]
    apply List.map_congr_left
    intro c hc
    have := hnl c hc
    unfold headerNewlineToSpace
    rw [if_neg (by simpa using this)]
    rfl
  unfold wireValue
  rw [hmap, trimString_of_ends _ hfirst hlast]
  rfl

/-! ## The properties of `Adapt` -/

/-- C1: for adapters `A_i` that emit `pre_i`, invoke their downstream handler once and then
emit `post_i`, invoking `Adapt(T, A_1, ..., A_N)` emits `pre_1, ..., pre_N`, then what `T`
emits, then `post_N, ..., post_1`; for instance `Adapt(T, A, B)` emits
`A-pre, B-pre, T, B-post, A-post`. -/
theorem C1_declared_order_then_unwind {ρ : Type} (T : Handler Trace ρ)
    (ps : List (Event × Event)) (r : ρ) (t : Trace) :
    Adapt T (wraps ps) r t = T r (t ++ ps.map Prod.fst) ++ (ps.map Prod.snd).reverse
    ∧ (∀ evs : ρ → List Event,
        Adapt (emitAll evs) (wraps ps) r t
          = t ++ ps.map Prod.fst ++ evs r ++ (ps.map Prod.snd).reverse)
    ∧ Adapt (emit "T") [wrap "A-pre" "A-post", wrap "B-pre" "B-post"] r []
        = ["A-pre", "B-pre", "T", "B-post", "A-post"] := by
  refine ⟨Adapt_wraps T ps r t, ?_, rfl⟩
  intro evs
  rw [Adapt_wraps]
  rfl

/-- C2: the backward index loop of `Adapt` returns `a1 (a2 (... (aN h)))`, the right fold of
function application over the adapter list started at `h`, both as a value and when the
loop is executed step by step; the last adapter is the one that receives `h`. -/
theorem C2_loop_is_right_fold {σ ρ : Type} (h : Handler σ ρ)
    (adapters : List (Adapter σ ρ)) :
    Adapt h adapters = adapters.foldr (fun a acc => a acc) h
    ∧ (∀ (k : Nat) (s : σ),
        Adapt.exec (adapters.length + 1 + k) h (adapters.map Adapter.toProc) s
          = .ok (adapters.foldr (fun a acc => a acc) h, s))
    ∧ (∀ (front : List (Adapter σ ρ)) (last : Adapter σ ρ),
        Adapt h (front ++ [last]) = Adapt (last h) front) := by
  refine ⟨Adapt_eq_nest h adapters, ?_, ?_⟩
  · intro k s
    rw [Adapt.exec_toProc, Adapt_eq_nest]
    rfl
  · intro front last
    rw [Adapt_append, Adapt_cons, Adapt_nil]

/-- C3: `Adapt(h, a1, rest...) = a1(Adapt(h, rest...))`: the first adapter is the outermost
wrapper, so a first adapter that emits `pre`, calls through and emits `post` emits `pre`
before the rest of the chain runs and `post` after it has returned. -/
theorem C3_first_adapter_outermost {σ ρ : Type} (h : Handler σ ρ) (a1 : Adapter σ ρ)
    (rest : List (Adapter σ ρ)) :
    Adapt h (a1 :: rest) = a1 (Adapt h rest)
    ∧ (∀ (g : Handler Trace ρ) (others : List (Adapter Trace ρ)) (pre post : Event)
        (r : ρ) (t : Trace),
        Adapt g (wrap pre post :: others) r t = Adapt g others r (t ++ [pre]) ++ [post]) := by
  refine ⟨Adapt_cons h a1 rest, ?_⟩
  intro g others pre post r t
  rw [Adapt_cons]
  rfl

/-- C4: with an empty adapter sequence `Adapt(h)` returns `h` itself: it behaves as `h` on
every request, and the step-by-step loop returns `h` after a single evaluation of its
test, in an unchanged world. -/
theorem C4_empty_sequence_returns_handler {σ ρ : Type} (h : Handler σ ρ) :
    Adapt h [] = h
    ∧ (∀ (r : ρ) (s : σ), Adapt h [] r s = h r s)
    ∧ (∀ (k : Nat) (s : σ), Adapt.exec (k + 1) h [] s = .ok (h, s)) := by
  refine ⟨rfl, fun _ _ => rfl, ?_⟩
  intro k s
  rfl

/-- C5: when adapter `k` builds a handler that never invokes its downstream handler, the
handler built by `Adapt` is the same for every choice of the adapters after `k` and of the
terminal handler, so none of them runs; for instance `Adapt(T, C)` with `C` emitting `C`
and not calling through emits only `C`. -/
theorem C5_short_circuit_cuts_downstream {σ ρ : Type} (xs : List (Adapter σ ρ))
    (c : Adapter σ ρ) (hc : NeverCallsThrough c) (ys ys' : List (Adapter σ ρ))
    (T T' : Handler σ ρ) :
    Adapt T (xs ++ c :: ys) = Adapt T' (xs ++ c :: ys')
    ∧ (∀ (r : ρ) (s : σ), Adapt T (xs ++ c :: ys) r s = Adapt T' (xs ++ [c]) r s)
    ∧ (∀ (U : Handler Trace ρ) (r : ρ) (t : Trace), Adapt U [stop "C"] r t = t ++ ["C"]) := by
  refine ⟨Adapt_cut c hc xs ys ys' T T', ?_, ?_⟩
  · intro r s
    rw [Adapt_cut c hc xs ys [] T T']
  · intro U r t
    rfl

/-- C5, at an instance: one adapter that calls through, then one that does not, then a
third adapter and a terminal handler that can be exchanged freely. -/
theorem C5_short_circuit_cuts_downstream_witness :
    NeverCallsThrough (stop (ρ := Unit) "C")
    ∧ (Adapt (emit "T" : Handler Trace Unit) ([wrap "A-pre" "A-post"] ++ stop "C" :: [mark "B"])
          = Adapt (emit "U") ([wrap "A-pre" "A-post"] ++ stop "C" :: [])
        ∧ (∀ (r : Unit) (s : Trace),
            Adapt (emit "T") ([wrap "A-pre" "A-post"] ++ stop "C" :: [mark "B"]) r s
              = Adapt (emit "U") ([wrap "A-pre" "A-post"] ++ [stop "C"]) r s)
        ∧ (∀ (U : Handler Trace Unit) (r : Unit) (t : Trace),
            Adapt U [stop "C"] r t = t ++ ["C"])) :=
  ⟨stop_neverCallsThrough "C",
    C5_short_circuit_cuts_downstream [wrap "A-pre" "A-post"] (stop "C")
      (stop_neverCallsThrough "C") [mark "B"] [] (emit "T") (emit "U")⟩

/-- C6: composition is order-sensitive: for a terminal handler that only emits and adapters
that emit distinct markers `a` and `b` before calling through, the trace of
`Adapt(T, A, B)` continues with `a, b`, the trace of `Adapt(T, B, A)` with `b, a`, and the
two traces differ (also when the adapters emit something after calling through). -/
theorem C6_order_sensitive {ρ : Type} (T : Handler Trace ρ) (hT : AppendOnly T)
    (a b : Event) (hab : a ≠ b) (r : ρ) (t : Trace) :
    Adapt T [mark a, mark b] r t ≠ Adapt T [mark b, mark a] r t
    ∧ (∃ rest, Adapt T [mark a, mark b] r t = t ++ [a, b] ++ rest)
    ∧ (∃ rest, Adapt T [mark b, mark a] r t = t ++ [b, a] ++ rest)
    ∧ (∀ pa pb : Event,
        Adapt T [wrap a pa, wrap b pb] r t ≠ Adapt T [wrap b pb, wrap a pa] r t) := by
  obtain ⟨e1, h1⟩ := hT r (t ++ [a] ++ [b])
  obtain ⟨e2, h2⟩ := hT r (t ++ [b] ++ [a])
  have hab1 : Adapt T [mark a, mark b] r t = T r (t ++ [a] ++ [b]) := rfl
  have hba1 : Adapt T [mark b, mark a] r t = T r (t ++ [b] ++ [a]) := rfl
  refine ⟨?_, ⟨e1, ?_⟩, ⟨e2, ?_⟩, ?_⟩
  · rw [hab1, hba1, h1, h2]
    intro heq
    simp at heq
    exact hab heq.1
  · rw [hab1, h1]; simp
  · rw [hba1, h2]; simp
  · intro pa pb
    have hab2 : Adapt T [wrap a pa, wrap b pb] r t = T r (t ++ [a] ++ [b]) ++ [pb] ++ [pa] :=
      rfl
    have hba2 : Adapt T [wrap b pb, wrap a pa] r t = T r (t ++ [b] ++ [a]) ++ [pa] ++ [pb] :=
      rfl
    rw [hab2, hba2, h1, h2]
    intro heq
    simp at heq
    exact hab heq.1

/-- C6, at an instance: the terminal handler emits `T`, the markers are `A` and `B`. -/
theorem C6_order_sensitive_witness :
    AppendOnly (emit (ρ := Unit) "T") ∧ ("A" : Event) ≠ "B"
    ∧ (Adapt (emit "T") [mark "A", mark "B"] () [] ≠ Adapt (emit "T") [mark "B", mark "A"] () []
      ∧ (∃ rest, Adapt (emit "T") [mark "A", mark "B"] () [] = [] ++ ["A", "B"] ++ rest)
      ∧ (∃ rest, Adapt (emit "T") [mark "B", mark "A"] () [] = [] ++ ["B", "A"] ++ rest)
      ∧ (∀ pa pb : Event,
          Adapt (emit "T") [wrap "A" pa, wrap "B" pb] () []
            ≠ Adapt (emit "T") [wrap "B" pb, wrap "A" pa] () [])) :=
  ⟨emit_appendOnly "T", by decide,
    C6_order_sensitive (emit "T") (emit_appendOnly "T") "A" "B" (by decide) () []⟩

/-- C7, as stated, fails: a nil value is a value of the type `Adapter`, and `Adapt` called
with it fails at the call `adapters[0](h)` instead of returning a handler; so does `Adapt`
called with an adapter whose call does not return. -/
theorem C7_nil_adapter_counterexample :
    Adapt.call 2 (emit "T" : Handler Trace Unit) [AdapterValue.nil] [] = .nilCall 0
    ∧ (∀ (fuel : Nat) (res : Handler Trace Unit × Trace),
        Adapt.call fuel (emit "T") [AdapterValue.nil] [] ≠ .ok res)
    ∧ Adapt.call 3 (emit "T" : Handler Trace Unit)
        [AdapterProc.toValue (Adapter.toProc (wrap "A-pre" "A-post")),
          AdapterValue.func fun _ _ => none] [] = .noReturn 1 := by
  refine ⟨rfl, ?_, rfl⟩
  intro fuel res
  cases fuel with
  | zero => intro hres; cases hres
  | succ f => intro hres; cases hres

/-- C7, amended: `Adapt` raises no error of its own. For every handler and every sequence of
values of the type `Adapter`, whatever they are and do: no slice access is out of range,
the loop ends within `len(adapters) + 1` evaluations of its test, and a failure, if there
is one, is the call of a nil adapter or of an adapter whose call does not return, at the
index reported. When every adapter is a function whose call returns, the loop returns a
handler after exactly `len(adapters)` iterations: as soon as it is allowed
`len(adapters) + 1` evaluations of its test and not before. -/
theorem C7_adapt_fails_only_in_an_adapter_call {σ ρ : Type} (h : Handler σ ρ)
    (values : List (AdapterValue σ ρ)) (adapters : List (AdapterProc σ ρ)) (s : σ)
    (fuel k : Nat) :
    (∀ i : Int, Adapt.call fuel h values s ≠ .indexOutOfRange i)
    ∧ Adapt.call (values.length + 1 + k) h values s ≠ .outOfFuel
    ∧ (∀ i : Int, Adapt.call fuel h values s = .nilCall i →
        sliceIndex values i = some .nil)
    ∧ (∀ i : Int, Adapt.call fuel h values s = .noReturn i →
        ∃ call, sliceIndex values i = some (.func call))
    ∧ Adapt.exec fuel h adapters s
      = (if fuel ≤ adapters.length then .outOfFuel else .ok (nestProc h s adapters))
    ∧ (∀ i : Int, Adapt.exec fuel h adapters s ≠ .indexOutOfRange i)
    ∧ (∃ res : Handler σ ρ × σ, Adapt.exec (adapters.length + 1) h adapters s = .ok res)
    ∧ Adapt.exec adapters.length h adapters s = .outOfFuel := by
  refine ⟨?_, ?_, ?_, ?_, Adapt.exec_eq fuel h adapters s, ?_,
    ⟨_, Adapt.exec_enough 0 h adapters s⟩, ?_⟩
  · intro i
    exact Adapt.run_indexInRange values fuel values.length (Nat.le_refl _) h s i
  · exact Adapt.run_ends values values.length (Nat.le_refl _) _ (by omega) h s
  · intro i
    exact Adapt.run_nilCall values fuel values.length (Nat.le_refl _) h s i
  · intro i
    exact Adapt.run_noReturn values fuel values.length (Nat.le_refl _) h s i
  · intro i
    rw [Adapt.exec_eq]
    split <;> simp
  · rw [Adapt.exec_eq, if_pos (Nat.le_refl _)]

/-- C7, amended, at an instance: the run on a single nil adapter fails with the nil call at
index 0, and index 0 of the slice does hold the nil value. -/
theorem C7_adapt_fails_only_in_an_adapter_call_witness :
    Adapt.call 2 (emit "T" : Handler Trace Unit) [AdapterValue.nil] [] = .nilCall 0
    ∧ sliceIndex ([AdapterValue.nil] : List (AdapterValue Trace Unit)) 0 = some .nil :=
  ⟨rfl, (C7_adapt_fails_only_in_an_adapter_call (emit "T") [AdapterValue.nil] [] [] 2
    0).2.2.1 0 rfl⟩

/-- C8: composition has no side effects: with adapters that only build wrapping handlers,
running `Adapt(T, A1, ..., AN)` returns the composed handler and leaves the world as it
was, whatever `T` would do if it were invoked; events appear only when the returned
handler is invoked. -/
theorem C8_composition_has_no_side_effects {σ ρ : Type} (T : Handler σ ρ)
    (as : List (Adapter σ ρ)) (s : σ) (k : Nat) :
    Adapt.exec (as.length + 1 + k) T (as.map Adapter.toProc) s = .ok (Adapt T as, s)
    ∧ (Adapt.exec (as.length + 1 + k) T (as.map Adapter.toProc) s).world? = some s
    ∧ (∀ (ps : List (Event × Event)) (e : Event) (r : ρ) (t : Trace),
        (Adapt.exec (ps.length + 1 + k) (emit e)
            ((wraps (ρ := ρ) ps).map Adapter.toProc) t).world? = some t
        ∧ Adapt (emit e) (wraps ps) r t
            = t ++ ps.map Prod.fst ++ [e] ++ (ps.map Prod.snd).reverse) := by
  refine ⟨Adapt.exec_toProc k T as s, ?_, ?_⟩
  · rw [Adapt.exec_toProc]; rfl
  · intro ps e r t
    have hlen : (wraps (ρ := ρ) ps).length = ps.length := List.length_map _ _
    refine ⟨?_, ?_⟩
    · rw [← hlen, Adapt.exec_toProc]; rfl
    · rw [Adapt_wraps]; rfl

/-- C9, as stated, fails: with two adapters that record their own call, `Adapt` calls
the second one listed first, and the first one listed is not the one applied to the given
handler. -/
theorem C9_called_left_to_right_counterexample :
    (Adapt.exec 3 (emit "h" : Handler Trace Unit)
        [announce "a1" (mark "1"), announce "a2" (mark "2")] []).world? = some ["a2", "a1"]
    ∧ (Adapt.exec 3 (emit "h" : Handler Trace Unit)
        [announce "a1" (mark "1"), announce "a2" (mark "2")] []).world? ≠ some ["a1", "a2"]
    ∧ Adapt (emit "h" : Handler Trace Unit) [mark "1", mark "2"] () []
        ≠ (mark "2" (mark "1" (emit "h" : Handler Trace Unit))) () [] := by
  refine ⟨rfl, ?_, ?_⟩ <;> decide

/-- C9, amended: `Adapt` calls the adapter functions right-to-left: adapters that record
their own call are recorded last-listed first, so `a_j` is called before `a_i` whenever
`i < j`, and the last adapter listed is the one applied to the given handler `h`. -/
theorem C9_adapters_called_last_to_first {ρ : Type} (h : Handler Trace ρ)
    (as : List (Event × Adapter Trace ρ)) (t : Trace) (k : Nat) :
    Adapt.exec (as.length + 1 + k) h (as.map fun p => announce p.1 p.2) t
      = .ok (Adapt h (as.map Prod.snd), t ++ (as.map Prod.fst).reverse)
    ∧ (∀ (procs : List (AdapterProc Trace ρ)) (last : AdapterProc Trace ρ),
        Adapt.exec ((procs ++ [last]).length + 1 + k) h (procs ++ [last]) t
          = Adapt.exec (procs.length + 1 + k) (last h t).1 procs (last h t).2) := by
  refine ⟨?_, fun procs last => Adapt.exec_snoc k h procs last t⟩
  have := Adapt.exec_enough k h (as.map fun p => announce p.1 p.2) t
  rw [List.length_map, nestProc_announce] at this
  exact this

/-- C10: exact short-circuit trace: when adapters `1..k-1` emit `pre_i`, call through and
emit `post_i`, and adapter `k` emits `c` without calling through, invoking `Adapt` emits
exactly `pre_1, ..., pre_(k-1), c, post_(k-1), ..., post_1`, whatever the later adapters
and the terminal handler are. -/
theorem C10_short_circuit_exact_trace {ρ : Type} (T : Handler Trace ρ)
    (ps : List (Event × Event)) (c : Event) (ys : List (Adapter Trace ρ)) (r : ρ)
    (t : Trace) :
    Adapt T (wraps ps ++ stop c :: ys) r t
      = t ++ ps.map Prod.fst ++ [c] ++ (ps.map Prod.snd).reverse := by
  rw [Adapt_append, Adapt_wraps, Adapt_cons]
  rfl

/-- C11: nested composition flattens: `Adapt(Adapt(h, ys...), xs...) = Adapt(h, (xs ++ ys)...)`,
so wrapping an already adapted handler is one `Adapt` call with the new adapters listed
first; executed step by step, one call on `xs ++ ys` ends as the call on `ys` followed by
the call on `xs` with the handler and world that the first call left. -/
theorem C11_nested_composition_flattens {σ ρ : Type} (h : Handler σ ρ)
    (xs ys : List (Adapter σ ρ)) :
    Adapt (Adapt h ys) xs = Adapt h (xs ++ ys)
    ∧ (∀ (ps qs : List (AdapterProc σ ρ)) (k : Nat) (s : σ),
        Adapt.exec ((ps ++ qs).length + 1 + k) h (ps ++ qs) s
          = match Adapt.exec (qs.length + 1 + k) h qs s with
            | .ok p => Adapt.exec (ps.length + 1 + k) p.1 ps p.2
            | .indexOutOfRange i => .indexOutOfRange i
            | .nilCall i => .nilCall i
            | .noReturn i => .noReturn i
            | .outOfFuel => .outOfFuel) := by
  refine ⟨(Adapt_append h xs ys).symm, ?_⟩
  intro ps qs k s
  rw [Adapt.exec_append, Adapt.exec_enough k h qs s]

/-- C12: `Adapt` imposes no exactly-once rule on call-through: when the first adapter
builds a handler that invokes its downstream handler `m` times and emits nothing itself,
invoking `Adapt(T, D, rest...)` is invoking `Adapt(T, rest...)` `m` times in a row: nothing
for `m = 0`, the downstream handler itself for `m = 1`, and in a trace the events of the
downstream chain repeated `m` times. -/
theorem C12_call_through_any_number_of_times {σ ρ : Type} (m : Nat) (T : Handler σ ρ)
    (rest : List (Adapter σ ρ)) (r : ρ) (s : σ) :
    Adapt T (callTimes m :: rest) r s = Nat.iterate (Adapt T rest r) m s
    ∧ Adapt T (callTimes 0 :: rest) r s = s
    ∧ Adapt T (callTimes 1 :: rest) r s = Adapt T rest r s
    ∧ (∀ (evs : ρ → List Event) (ps : List (Event × Event)) (t : Trace),
        Adapt (emitAll evs) (callTimes m :: wraps ps) r t
          = t ++ (List.replicate m
              (ps.map Prod.fst ++ evs r ++ (ps.map Prod.snd).reverse)).flatten) := by
  refine ⟨?_, ?_, ?_, ?_⟩
  · rw [Adapt_cons]; rfl
  · rw [Adapt_cons]; rfl
  · rw [Adapt_cons]; rfl
  · intro evs ps t
    rw [Adapt_cons]
    show Nat.iterate (Adapt (emitAll evs) (wraps ps) r) m t = _
    apply iterate_emitter
    intro t'
    rw [Adapt_wraps]
    simp [emitAll]

/-- C13, as stated, fails: for a `HEAD` request the response of
`Adapt(ServeIndex, versionAdapter(g))` has an empty body, not `Hello, World.`; and a
greeting with surrounding space is not carried as it is: the header value ` hi ` is written
as `hi`. -/
theorem C13_head_request_counterexample :
    (Adapt ServeIndex [versionAdapter "greetings"] (Request.mk "HEAD")
        (ResponseWriter.fresh "HEAD")).body = ""
    ∧ (Adapt ServeIndex [versionAdapter "greetings"] (Request.mk "HEAD")
        (ResponseWriter.fresh "HEAD")).body ≠ "Hello, World."
    ∧ (Adapt ServeIndex [versionAdapter " hi "] (Request.mk "GET")
        (ResponseWriter.fresh "GET")).sent.map
          (fun st => (st.2 "Vnd-Adapter-Example").map wireValue) = some ["hi"]
    ∧ wireValue " hi " ≠ " hi " := by
  refine ⟨by decide, by decide, by decide, by decide⟩

/-- C13, amended: the handler `versionAdapter(g)(h)` first appends `g` to the values of the
header key `Vnd-Adapter-Example`, keeping the values already there and every other header,
the status line and the body as they are, and then invokes `h` once with the same writer
and request. Hence `Adapt(ServeIndex, versionAdapter(g))` leaves `g` under that key in the
header map; on the fresh writer of a request the header map with `g` is sent with status
200, the value is written as `g` with line breaks replaced by spaces and the surrounding
space trimmed (as `g` itself when it has none of these, as for `greetings`), and the body
is `Hello, World.` unless the request is a `HEAD` request, whose response has no body. -/
theorem C13_versionAdapter_adds_header_then_calls_through {ρ : Type} (g : String)
    (h : Handler ResponseWriter ρ) (r : ρ) (w : ResponseWriter) (req : Request) :
    versionAdapter g h r w = h r (w.headerAdd "Vnd-Adapter-Example" g)
    ∧ (∀ k : String, (w.headerAdd "Vnd-Adapter-Example" g).header k
        = if k = "Vnd-Adapter-Example" then w.header k ++ [g] else w.header k)
    ∧ (w.headerAdd "Vnd-Adapter-Example" g).sent = w.sent
    ∧ (w.headerAdd "Vnd-Adapter-Example" g).body = w.body
    ∧ Adapt ServeIndex [versionAdapter g] r w
        = (w.headerAdd "Vnd-Adapter-Example" g).write "Hello, World."
    ∧ (Adapt ServeIndex [versionAdapter g] r w).header "Vnd-Adapter-Example"
        = w.header "Vnd-Adapter-Example" ++ [g]
    ∧ (Adapt ServeIndex [versionAdapter g] req (ResponseWriter.fresh req.method)).header
        "Vnd-Adapter-Example" = [g]
    ∧ (Adapt ServeIndex [versionAdapter g] req (ResponseWriter.fresh req.method)).sent.map
        (fun st => (st.1, st.2 "Vnd-Adapter-Example")) = some (200, [g])
    ∧ (Adapt ServeIndex [versionAdapter g] req (ResponseWriter.fresh req.method)).sent.map
        (fun st => (st.2 "Vnd-Adapter-Example").map wireValue) = some [wireValue g]
    ∧ (Adapt ServeIndex [versionAdapter g] req (ResponseWriter.fresh req.method)).body
        = (if req.method = "HEAD" then "" else "Hello, World.")
    ∧ (plainValue g = true → wireValue g = g)
    ∧ wireValue "greetings" = "greetings" := by
  have hv : ∀ {τ : Type} (h' : Handler ResponseWriter τ) (q : τ) (w' : ResponseWriter),
      versionAdapter g h' q w' = h' q (w'.headerAdd "Vnd-Adapter-Example" g) := by
    intro τ h' q w'
    show h' q (w'.headerAdd (canonicalMIMEHeaderKey "vnd-adapter-example") g) = _
    rw [canonicalKey_example]
  have hk : ∀ (w' : ResponseWriter) (k : String),
      (w'.headerAdd "Vnd-Adapter-Example" g).header k
        = if k = "Vnd-Adapter-Example" then w'.header k ++ [g] else w'.header k := by
    intro w' k
    show (if k = canonicalMIMEHeaderKey "Vnd-Adapter-Example" then _ else _) = _
    rw [canonicalKey_canonical]
  have ha : ∀ {τ : Type} (q : τ) (w' : ResponseWriter),
      Adapt ServeIndex [versionAdapter g] q w'
        = (w'.headerAdd "Vnd-Adapter-Example" g).write "Hello, World." := by
    intro τ q w'
    rw [Adapt_cons, Adapt_nil, hv]
    rfl
  have hnil : Header.add (fun _ => []) "Vnd-Adapter-Example" g "Vnd-Adapter-Example"
      = [g] := by
    have := hk (ResponseWriter.fresh req.method) "Vnd-Adapter-Example"
    rw [if_pos rfl] at this
    exact this
  refine ⟨hv h r w, hk w, rfl, rfl, ha r w, ?_, ?_, ?_, ?_, ?_, wireValue_plain g,
    by decide⟩
  · rw [ha, write_header_other _ _ _ (by decide), hk, if_pos rfl]
  · rw [ha, write_hello_fresh]
    exact hnil
  · rw [ha, write_hello_fresh]
    show some (200, Header.add (fun _ => []) "Vnd-Adapter-Example" g "Vnd-Adapter-Example")
      = _
    rw [hnil]
  · rw [ha, write_hello_fresh]
    show some ((Header.add (fun _ => []) "Vnd-Adapter-Example" g
      "Vnd-Adapter-Example").map wireValue) = _
    rw [hnil]
    rfl
  · rw [ha, write_hello_fresh]

/-- C13, amended, at an instance: the greeting `greetings` of the example is a plain value,
so it is written on the wire as it is. -/
theorem C13_versionAdapter_adds_header_then_calls_through_witness :
    plainValue "greetings" = true ∧ wireValue "greetings" = "greetings" :=
  ⟨by decide,
    (C13_versionAdapter_adds_header_then_calls_through (ρ := Unit) "greetings" ServeIndex ()
      (ResponseWriter.fresh "GET") (Request.mk "GET")).2.2.2.2.2.2.2.2.2.2.1 (by decide)⟩

end Chain
